import Mathlib

/-!
Verification of the clinical-dashboard data layer.

This development gives a shallow embedding, in Lean, of the data model and the
operations of the dashboard data layer (FHIRClient and DataSyncService in
fhirClient.js / dataSyncService.js, RestApiService in restApiService.js, and
the DepartmentAnalytics derivations in DepartmentAnalytics.js), and proves or
refutes the specified properties about them.

Conventions of the embedding:
- JavaScript numbers that the code treats as integral quantities (ages,
  minutes, timestamps in milliseconds, observation values) are modelled as
  Int or Nat.
- JavaScript strings that undergo string surgery are modelled as List Char;
  template-literal concatenation is list append and the split method is an
  explicit splitOnChar function defined below.
- Fallible operations return Except or Option; a thrown exception is the
  error case, and a try/catch block is explicit case analysis.
- Asynchronous code is modelled by explicit state passing plus, where the
  observable behaviour matters, a trace of emitted effects.
-/

namespace Dash

/-! ## Dates and age computation

SimpleDate models the (getFullYear, getMonth, getDate) view of a JS Date.
Month is the raw zero-based value returned by getMonth; only differences and
comparisons of months occur in the source, so the basing does not matter.
-/

structure SimpleDate where
  year : Int
  month : Int
  day : Int
deriving DecidableEq, Repr

/-- Embeds RestApiService.calculateAge (restApiService.js lines 308-318):
whole-year subtraction, decremented when the month difference is negative or
the month difference is zero and the day of month has not been reached. A
missing birth date yields 0. -/
def calculateAge (today : SimpleDate) (birthDate : Option SimpleDate) : Int :=
  match birthDate with
  | none => 0
  | some birth =>
    let age := today.year - birth.year
    let monthDiff := today.month - birth.month
    if monthDiff < 0 ∨ (monthDiff = 0 ∧ today.day < birth.day) then age - 1 else age

/-- Embeds the age computation inside FHIRClient.buildDashboardData
(fhirClient.js line 390): plain year subtraction with no month/day
adjustment. -/
def fhirBuildAge (today : SimpleDate) (birth : SimpleDate) : Int :=
  today.year - birth.year

/-- Stated from the spec's words, for comparison with the code: whole-year
subtraction, decremented by one exactly when the current month/day pair
lexicographically precedes the birth month/day pair. -/
def specCalendarAge (today : SimpleDate) (birth : SimpleDate) : Int :=
  today.year - birth.year -
    (if today.month < birth.month ∨ (today.month = birth.month ∧ today.day < birth.day)
     then 1 else 0)

/-! ## JS string primitives

Strings that the source manipulates character by character are embedded as
List Char. Number-to-string conversion mirrors the decimal rendering of
toString on integral values, via a fuel-based digit loop so that the kernel
can evaluate it on concrete inputs.
-/

/-- Decimal digit character for a value below ten. -/
def digitChar (n : Nat) : Char :=
  if n = 0 then '0' else if n = 1 then '1' else if n = 2 then '2'
  else if n = 3 then '3' else if n = 4 then '4' else if n = 5 then '5'
  else if n = 6 then '6' else if n = 7 then '7' else if n = 8 then '8'
  else if n = 9 then '9' else '*'

/-- Digit accumulation loop for natToChars; fuel bounds the recursion depth. -/
def natToCharsGo : Nat → Nat → List Char → List Char
  | 0, _, acc => acc
  | fuel + 1, n, acc =>
    if n < 10 then digitChar n :: acc
    else natToCharsGo fuel (n / 10) (digitChar (n % 10) :: acc)

/-- Decimal rendering of a natural number. -/
def natToChars (n : Nat) : List Char :=
  natToCharsGo (n + 1) n []

/-- Decimal rendering of an integer, as toString produces it. -/
def intToChars (i : Int) : List Char :=
  if i < 0 then '-' :: natToChars i.natAbs else natToChars i.toNat

/-- The split method of JS strings, for a single-character separator. -/
def splitOnChar (sep : Char) : List Char → List (List Char)
  | [] => [[]]
  | c :: cs =>
    if c = sep then [] :: splitOnChar sep cs
    else
      match splitOnChar sep cs with
      | [] => [[c]]
      | t :: ts => (c :: t) :: ts

/-- Rendering of the JS undefined value inside a template literal, which is
what out-of-range array indexing feeds into string interpolation. -/
def jsUndefined : List Char := ['u', 'n', 'd', 'e', 'f', 'i', 'n', 'e', 'd']

/-- JS array indexing followed by template-literal interpolation: an index
past the end interpolates as the text undefined. -/
def jsIndex (l : List (List Char)) (i : Nat) : List Char :=
  l.getD i jsUndefined

/-! ## Journey-time classification (DepartmentAnalytics.js lines 43-58) -/

/-- The fixed ordered list of workflow step names summed into the estimated
journey time (DepartmentAnalytics.js, keySteps). -/
def keySteps : List String :=
  ["Triage to Nurse",
   "Triage to Doctor",
   "Pathology Request to Result",
   "Imaging Request to Reported",
   "Doctor to Senior Doctor",
   "Admission Request to Bed",
   "Bed Allocation to Departure"]

/-- Object-property lookup for a turnaround mapping represented as an
association list. -/
def lookupStep (t : List (String × Int)) (k : String) : Option Int :=
  (t.find? (fun p => p.1 = k)).map Prod.snd

/-- Embeds estimatedJourney: the reduce over keySteps, a missing step
contributing zero (the JS expression turnaround[k] || 0; a stored zero also
contributes zero, which coincides with getD 0 on integers). -/
def estimatedJourney (turnaround : List (String × Int)) : Int :=
  keySteps.foldl (fun sum k => sum + ((lookupStep turnaround k).getD 0)) 0

/-- Embeds the fourHourStatus label selection: the threshold chain over the
estimated journey with fourHourThreshold = 240. -/
def fourHourStatus (journey : Int) : String :=
  if journey ≤ 240 then "ON TARGET"
  else if journey ≤ 300 then "AT RISK"
  else "OFF TARGET"

/-! ## Vitals extraction

Two vitals extractors exist in the sources: RestApiService.extractVitals
(restApiService.js lines 356-395), keyed on standardized LOINC codes, and
FHIRClient.extractVitalsFromObservations (fhirClient.js lines 401-421),
keyed on the short mock codes. Both filter observations by the subject
reference Patient/{patientId} and fold over the matches.

Observation values (valueQuantity.value) are embedded as integers, so
Math.round is the identity and toFixed(1) appends the text .0.
-/

/-- A JS value that is either a number or a string; the vitals fields mix
both in the source. -/
inductive JVal where
  | num (n : Int)
  | str (s : List Char)
deriving DecidableEq, Repr

/-- The sentinel text N/A. -/
def nA : List Char := ['N', '/', 'A']

/-- The JS expression x || sentinel for a numeric x: undefined and the number
zero are falsy and yield the sentinel. -/
def jsOrNAnum : Option Int → JVal
  | some n => if n = 0 then JVal.str nA else JVal.num n
  | none => JVal.str nA

/-- The JS expression x || sentinel for a string x: undefined and the empty
string are falsy and yield the sentinel. -/
def jsOrNAstr : Option (List Char) → JVal
  | some s => if s = [] then JVal.str nA else JVal.str s
  | none => JVal.str nA

/-- The subject reference text Patient/{patientId}. -/
def patientRefChars (patientId : List Char) : List Char :=
  ['P', 'a', 't', 'i', 'e', 'n', 't', '/'] ++ patientId

/-- Math.round on a value embedded as an integer. -/
def jsRound (v : Int) : Int := v

/-- toFixed(1) on a value embedded as an integer. -/
def jsToFixed1 (v : Int) : List Char := intToChars v ++ ['.', '0']

/-- One observation as RestApiService.extractVitals reads it: the optional
subject reference (subject and its reference are read behind a guard), the
optional first coding code, and the optional numeric value. -/
structure Obs where
  subjectRef : Option (List Char)
  code : Option (List Char)
  value : Option Int

/-- The mutable vitals object accumulated by RestApiService.extractVitals:
absent properties are none. -/
structure VitalsAcc where
  hr : Option Int
  bp : Option (List Char)
  temp : Option (List Char)
  spo2 : Option Int

/-- The record RestApiService.extractVitals returns. -/
structure VitalsOut where
  hr : JVal
  bp : JVal
  temp : JVal
  rr : JVal
  spo2 : JVal
deriving DecidableEq, Repr

/-- The body of the forEach loop in RestApiService.extractVitals: guard on
truthy code and value (a missing code or value, an empty code, or a zero
value is skipped), then the switch over the LOINC code table. The blood
pressure cases rebuild the pair text around split, exactly as the source
does. -/
def extractVitalsStep (acc : VitalsAcc) (o : Obs) : VitalsAcc :=
  match o.code, o.value with
  | some c, some v =>
    if c ≠ [] ∧ v ≠ 0 then
      if c = "8867-4".data then { acc with hr := some (jsRound v) }
      else if c = "8480-6".data then
        { acc with bp := some (match acc.bp with
          | some b => intToChars (jsRound v) ++ '/' :: jsIndex (splitOnChar '/' b) 1
          | none => intToChars (jsRound v) ++ '/' :: ['-', '-']) }
      else if c = "8462-4".data then
        { acc with bp := some (match acc.bp with
          | some b => jsIndex (splitOnChar '/' b) 0 ++ '/' :: intToChars (jsRound v)
          | none => '-' :: '-' :: '/' :: intToChars (jsRound v)) }
      else if c = "8310-5".data then { acc with temp := some (jsToFixed1 v) }
      else if c = "2708-6".data then { acc with spo2 := some (jsRound v) }
      else acc
    else acc
  | _, _ => acc

/-- The return statement of RestApiService.extractVitals: each accumulated
field read back with the falsy-to-sentinel defaulting; the rr key is
hardcoded to N/A in the source. -/
def mkVitalsOut (vitals : VitalsAcc) : VitalsOut :=
  { hr := jsOrNAnum vitals.hr
    bp := jsOrNAstr vitals.bp
    temp := jsOrNAstr vitals.temp
    rr := JVal.str nA
    spo2 := jsOrNAnum vitals.spo2 }

/-- Embeds RestApiService.extractVitals: filter the observations to the
patient, fold the switch over them starting from the empty vitals object,
then build the returned record. -/
def extractVitals (observations : List Obs) (patientId : List Char) : VitalsOut :=
  mkVitalsOut
    ((observations.filter (fun o => o.subjectRef = some (patientRefChars patientId))).foldl
      extractVitalsStep ⟨none, none, none, none⟩)

/-- One observation as FHIRClient.extractVitalsFromObservations reads it:
subject reference and first coding code are accessed unconditionally, the
numeric value optionally. -/
structure MObs where
  subjectRef : List Char
  code : List Char
  value : Option Int

/-- JS dynamic property write vitals[code] = v on an object embedded as an
insertion-ordered association list: overwrite the existing key in place,
otherwise append it. -/
def assocSet : List (List Char × List Char) → List Char → List Char →
    List (List Char × List Char)
  | [], k, v => [(k, v)]
  | p :: ps, k, v => if p.1 = k then (k, v) :: ps else p :: assocSet ps k v

/-- JS property read on the association-list object: absent keys are
undefined. -/
def assocGet : List (List Char × List Char) → List Char → Option (List Char)
  | [], _ => none
  | p :: ps, k => if p.1 = k then some p.2 else assocGet ps k

/-- The body of the forEach loop in FHIRClient.extractVitalsFromObservations:
a truthy value is stored as its decimal text under the raw observation
code. -/
def mockVitalsStep (m : List (List Char × List Char)) (o : MObs) :
    List (List Char × List Char) :=
  match o.value with
  | some v => if v ≠ 0 then assocSet m o.code (intToChars v) else m
  | none => m

/-- The record FHIRClient.extractVitalsFromObservations returns: only the
four mock keys are read back. -/
structure MVitalsOut where
  hr : JVal
  bp : JVal
  temp : JVal
  spo2 : JVal
deriving DecidableEq, Repr

/-- The return statement of FHIRClient.extractVitalsFromObservations: only
the four mock keys are read back, each defaulting to N/A. -/
def mkMVitalsOut (vitals : List (List Char × List Char)) : MVitalsOut :=
  { hr := jsOrNAstr (assocGet vitals ['h', 'r'])
    bp := jsOrNAstr (assocGet vitals ['b', 'p'])
    temp := jsOrNAstr (assocGet vitals ['t', 'e', 'm', 'p'])
    spo2 := jsOrNAstr (assocGet vitals ['s', 'p', 'o', '2']) }

/-- Embeds FHIRClient.extractVitalsFromObservations. -/
def extractVitalsFromObservations (observations : List MObs) (patientId : List Char) :
    MVitalsOut :=
  mkMVitalsOut
    ((observations.filter (fun o => o.subjectRef = patientRefChars patientId)).foldl
      mockVitalsStep [])

/-- The table of standardized codes named by the specification. -/
def loincCodes : List (List Char) :=
  ["8867-4".data, "8480-6".data, "8462-4".data, "8310-5".data, "2708-6".data]

/-- The mock code table that FHIRClient actually keys on. -/
def mockCodes : List (List Char) :=
  [['h', 'r'], ['b', 'p'], ['t', 'e', 'm', 'p'], ['s', 'p', 'o', '2']]

/-- A complete systolic/diastolic pair as the source renders it. -/
def bpFull (a b : Int) : List Char := intToChars a ++ '/' :: intToChars b

/-- A systolic-only half pair with the placeholder on the diastolic side. -/
def bpSysOnly (a : Int) : List Char := intToChars a ++ '/' :: ['-', '-']

/-- A diastolic-only half pair with the placeholder on the systolic side. -/
def bpDiaOnly (b : Int) : List Char := '-' :: '-' :: '/' :: intToChars b

/-- The blood-pressure well-formedness the claim asserts: a complete pair of
parsed numbers. -/
def isCompleteBp (s : List Char) : Prop := ∃ a b : Int, s = bpFull a b

/-- Shape invariant for the accumulated bp property: absent, a complete
pair, or one of the two half pairs. -/
def accBpShape (x : Option (List Char)) : Prop :=
  x = none ∨ (∃ a b, x = some (bpFull a b)) ∨
    (∃ a, x = some (bpSysOnly a)) ∨ (∃ b, x = some (bpDiaOnly b))

/-- Shape invariant for the accumulated temp property: absent or a rendered
one-decimal value. -/
def accTempShape (x : Option (List Char)) : Prop :=
  x = none ∨ ∃ n, x = some (jsToFixed1 n)

/-- The loop invariant of the extractVitals fold. -/
def accInv (acc : VitalsAcc) : Prop :=
  accBpShape acc.bp ∧ accTempShape acc.temp

/-! ## RemoteSourceClient search (RestApiService.searchResources, lines 44-86)

The HTTP layer is embedded as an oracle mapping the attempt index, the
resource type and the query to either none (the fetch rejects: network
error) or a response carrying a status and an optional entry array. The
resource payloads inside entries are opaque to the client, so they are a
type parameter. Caller-supplied parameter values are modelled as present
and non-null, as at every call site in the sources.
-/

/-- An HTTP response as searchResources consumes it: the status code and
the entry array of the parsed JSON body (absent when the body has no entry
property). -/
structure HttpResp (α : Type) where
  status : Nat
  entry : Option (List α)
deriving DecidableEq, Repr

/-- The ok getter of a fetch Response: status in the 2xx range. -/
def respOk {α : Type} (r : HttpResp α) : Bool :=
  decide (200 ≤ r.status) && decide (r.status ≤ 299)

/-- Presence test for a query key, as the JS truthiness tests on
params._count and params._sort behave for the call sites in the sources. -/
def hasKey (params : List (String × String)) (k : String) : Bool :=
  params.any (fun p => p.1 = k)

/-- Embeds buildUrl: the caller parameters in order, then the default page
size when _count is absent, then (unless omitSort) the default sort when
_sort is absent. -/
def buildQuery (params : List (String × String)) (omitSort : Bool) :
    List (String × String) :=
  params ++ (if hasKey params "_count" then [] else [("_count", "10")]) ++
    (if !omitSort && !hasKey params "_sort" then [("_sort", "-_lastUpdated")] else [])

/-- Embeds RestApiService.getMockResources: the fallback used when a search
fails at the client level; it returns the empty result set. -/
def getMockResources (α : Type) (resourceType : String)
    (params : List (String × String)) : List α :=
  []

/-- Embeds RestApiService.searchResources. The returned pair is the ordered
trace of queries issued over HTTP and the result list. The control flow
mirrors the source: first request with the default-completed query; on a
400 or 422 response one retry with omitSort; a rejected fetch or a final
non-2xx response falls into the catch, which returns getMockResources; an
ok response yields its entry array or the empty list. -/
def searchResources {α : Type}
    (http : Nat → String → List (String × String) → Option (HttpResp α))
    (resourceType : String) (params : List (String × String)) :
    List (List (String × String)) × List α :=
  match http 0 resourceType (buildQuery params false) with
  | none => ([buildQuery params false], getMockResources α resourceType params)
  | some r1 =>
    if respOk r1 = false ∧ (r1.status = 400 ∨ r1.status = 422) then
      match http 1 resourceType (buildQuery params true) with
      | none => ([buildQuery params false, buildQuery params true],
          getMockResources α resourceType params)
      | some r2 =>
        if respOk r2 = false then
          ([buildQuery params false, buildQuery params true],
            getMockResources α resourceType params)
        else ([buildQuery params false, buildQuery params true], r2.entry.getD [])
    else if respOk r1 = false then
      ([buildQuery params false], getMockResources α resourceType params)
    else ([buildQuery params false], r1.entry.getD [])

/-- A network in which every request is answered with a bare 400 response. -/
def http400 : Nat → String → List (String × String) → Option (HttpResp Nat) :=
  fun _ _ _ => some ⟨400, none⟩

/-! ## Timeline merge (DataSyncService.generateTimelineEvents, lines 823-856)

Timestamps are epoch milliseconds, embedded as Int. The sort call
events.sort((a, b) => b.timestamp - a.timestamp) is, per the language
specification, a stable sort consistent with the comparator; a consistent
comparator together with stability determines the output uniquely, and
insertionSort over the realized ordering tsDesc is one stable sorting
algorithm for it, so it denotes the same function.
-/

/-- A timeline event with the fields the source constructs and sorts on. -/
structure TEvent where
  id : List Char
  timestamp : Int
  etype : List Char
  description : List Char
  priority : List Char
  source : List Char
  patientId : List Char
deriving DecidableEq, Repr

/-- An adapted encounter as generateTimelineEvents reads it: startTime and
endTime are none when the property is absent or falsy. -/
structure Enc where
  id : List Char
  patientId : List Char
  startTime : Option Int
  endTime : Option Int
deriving DecidableEq, Repr

/-- The clinical event pushed for a truthy encounter startTime. -/
def encounterStartEvent (encounter : Enc) (t : Int) : TEvent :=
  { id := "encounter_".data ++ encounter.id ++ "_start".data
    timestamp := t
    etype := "encounter_start".data
    description := "Encounter started".data
    priority := "high".data
    source := "fhir".data
    patientId := encounter.patientId }

/-- The clinical event pushed for a truthy encounter endTime. -/
def encounterEndEvent (encounter : Enc) (t : Int) : TEvent :=
  { id := "encounter_".data ++ encounter.id ++ "_end".data
    timestamp := t
    etype := "encounter_end".data
    description := "Encounter completed".data
    priority := "high".data
    source := "fhir".data
    patientId := encounter.patientId }

/-- The events array as the pushes build it, before sorting: the encounter
start event, then the spread AI timestamps, then the encounter end event. -/
def preSortEvents (encounter : Enc) (aiTimestamps : List TEvent) : List TEvent :=
  (match encounter.startTime with
   | some t => [encounterStartEvent encounter t]
   | none => []) ++ aiTimestamps ++
  (match encounter.endTime with
   | some t => [encounterEndEvent encounter t]
   | none => [])

/-- The ordering realized by the comparator (a, b) => b.timestamp minus
a.timestamp: a may precede b exactly when the comparator value is at most
zero. -/
def tsDesc (a b : TEvent) : Prop := b.timestamp ≤ a.timestamp

instance : DecidableRel tsDesc := fun a b => Int.decLe b.timestamp a.timestamp

instance : IsTotal TEvent tsDesc :=
  ⟨fun a b => Int.le_total b.timestamp a.timestamp⟩

instance : IsTrans TEvent tsDesc :=
  ⟨fun _ _ _ hab hbc => le_trans hbc hab⟩

/-- Embeds DataSyncService.generateTimelineEvents: build the pre-sort array
and sort it stably by descending timestamp. -/
def generateTimelineEvents (encounter : Enc) (aiTimestamps : List TEvent) : List TEvent :=
  List.insertionSort tsDesc (preSortEvents encounter aiTimestamps)

/-- An AI-generated (enrichment) event at timestamp 100. -/
def aiTieEvent : TEvent :=
  ⟨"ai_1_0".data, 100, "lab_order".data, "Laboratory tests ordered".data,
    "medium".data, "ai_generated".data, ['1']⟩

/-- An encounter that ends at timestamp 100 and has no recorded start. -/
def tieEncounter : Enc := ⟨['e'], ['1'], none, some 100⟩

/-! ## DataSyncService (dataSyncService.js)

The coordinator is embedded as explicit state passing. Subscribers are the
JS Set of callbacks: an insertion-ordered duplicate-free list of callback
identities; the behaviour of a callback (whether it throws on a given
snapshot) is an environment function of its identity. Opaque payloads
(adapted patient fields, kpis, alerts, fixture contents, enrichment events)
are natural numbers.

Two members of the repository are imported by dataSyncService.js but are
not among the given sources and are modelled from the spec:
- adaptDashboardData (src/utils/fhirAdapter.js). Modelled from the spec:
  section 4.1 specifies it as a pure, total normalization whose per-resource
  failures degrade to named defaults and never fail the call; only its value
  on the static ed-summary fixture matters here, so the environment carries
  that value directly (mockAdapted, none when the fixture fetch itself
  rejects).
- aiDataService.generatePatientTimeline. Modelled from the spec: section 6
  specifies an enrichment collaborator returning timelineEvents per patient,
  whose absence or failure degrades to a fallback list; the environment
  carries it as a per-patient Except, with the random fallback
  generatePatientAITimestamps injected as a per-patient list.
The connected branch calls restApiService.getDashboardData(), which runs
three searchResources calls (already embedded above, Patient/Encounter/
Observation with their page sizes) and assembles buildDashboardData from
the resulting entry lists. That call never rejects: every failure inside
searchResources is caught and converted to getMockResources() — the empty
array — and buildDashboardData is total. Its patients field is the map of
a per-entry assembly over the Patient entries (restApiService.js lines
259-269); the fields each entry is given (name, age, status, priority,
randomized wait time, vitals) are collapsed into the opaque per-entry
function adaptRestPatient, and the non-patient parts of the result (kpis,
departments, alerts, turnaround, losStats, admittedPatients) into the
opaque restPayload, keeping the structural fact the claims depend on: an
empty entries list yields an empty patients list.
-/

/-- An adapted patient inside the cached dashboard data: identity, opaque
adapted fields, and the AI-enhancement fields added by the coordinator. -/
structure DPatient where
  id : Nat
  payload : Nat
  aiTimestamps : List Nat
  lastAITimestamp : Option Nat
deriving DecidableEq, Repr

/-- A dashboard value as the load path produces it, before the analytics
property is merged: the patients sequence and the remaining fields opaque. -/
structure Dashboard where
  patients : List DPatient
  payload : Nat
deriving DecidableEq, Repr

/-- The cachedData object as it is handed to subscribers. -/
structure Snapshot where
  patients : List DPatient
  payload : Nat
  analytics : Option Nat
deriving DecidableEq, Repr

/-- The mutable state of the DataSyncService instance. -/
structure SyncState where
  isConnected : Bool
  subscribers : List Nat
  cachedPatients : List DPatient
  cachedPayload : Nat
  cachedAnalytics : Option Nat
  timerOn : Bool
deriving DecidableEq, Repr

/-- One callback invocation performed by notifySubscribers: which
subscriber, with which snapshot, and whether the callback threw (the throw
is caught by the per-iteration try/catch). -/
structure Delivery where
  sub : Nat
  snapshot : Snapshot
  threw : Bool
deriving DecidableEq, Repr

/-- The environment of one load cycle: the probe outcome recorded in
RestApiService.isConnected, the two fixture fetches, the HTTP network and
the opaque parts of buildDashboardData for the remote path, the enrichment
collaborator and its fallback, and the behaviour of each subscribed
callback. -/
structure SyncEnv where
  restConnected : Bool
  mockAdapted : Option Dashboard
  http : Nat → String → List (String × String) → Option (HttpResp Nat)
  adaptRestPatient : Nat → DPatient
  restPayload : List Nat → List Nat → List Nat → Nat
  analyticsFetch : Option Nat
  ai : Nat → Except Unit (List Nat)
  aiFallback : Nat → List Nat
  beh : Nat → Snapshot → Bool

/-- The per-patient enhancement of enhanceWithAITimestamps combined with
generateAITimestamps: the enrichment collaborator result for the patient,
falling back to generatePatientAITimestamps when it throws, plus the
lastAITimestamp derived by getLatestAITimestamp (the head of the
descending-sorted list, null when empty). -/
def enhancePatient (env : SyncEnv) (p : DPatient) : DPatient :=
  match env.ai p.id with
  | Except.ok evs => { p with aiTimestamps := evs, lastAITimestamp := evs.head? }
  | Except.error _ =>
    { p with
      aiTimestamps := env.aiFallback p.id
      lastAITimestamp := (env.aiFallback p.id).head? }

/-- Embeds enhanceWithAITimestamps on the patients sequence; its outer
try/catch returns the data unchanged on failure, and the per-patient
try/catch inside generateAITimestamps makes each step total, so the whole
map is total. -/
def enhanceWithAITimestamps (env : SyncEnv) (d : Dashboard) : Dashboard :=
  { d with patients := d.patients.map (enhancePatient env) }

/-- The cachedData object assembled from the state. -/
def snapshotOf (st : SyncState) : Snapshot :=
  ⟨st.cachedPatients, st.cachedPayload, st.cachedAnalytics⟩

/-- Embeds DataSyncService.notifySubscribers: the forEach over the
subscriber set whose body wraps each callback call in try/catch, so every
subscriber is invoked in order with the same data regardless of earlier
throws; the result is the ordered invocation log. -/
def notifySubscribers (beh : Nat → Snapshot → Bool) (subs : List Nat) (data : Snapshot) :
    List Delivery :=
  subs.map (fun i => ⟨i, data, beh i data⟩)

/-- The cache update performed by a load cycle: the spread merge replaces
the patients and the other dashboard fields and leaves the analytics
property (owned by loadAnalyticsData) intact. -/
def applyDashboard (st : SyncState) (d : Dashboard) : SyncState :=
  { st with cachedPatients := d.patients, cachedPayload := d.payload }

/-- Embeds RestApiService.getDashboardData as the connected load path runs
it: three searchResources calls with the source's resource types and page
sizes, then buildDashboardData over the resulting entry lists — the
patients are the per-entry assembly mapped over the Patient entries, the
remaining fields the opaque payload of the three lists. The try/catch
around the searches is dead: searchResources returns instead of raising. -/
def restGetDashboardData (env : SyncEnv) : Dashboard :=
  { patients := (searchResources env.http "Patient" [("_count", "20")]).2.map
      env.adaptRestPatient
    payload := env.restPayload (searchResources env.http "Patient" [("_count", "20")]).2
      (searchResources env.http "Encounter" [("_count", "20")]).2
      (searchResources env.http "Observation" [("_count", "50")]).2 }

/-- Embeds DataSyncService.loadDashboardData: the connected branch uses the
getDashboardData result as-is, the mock branch fetches and adapts the
fixture (a rejected fixture fetch propagates: the catch rethrows); the
enhanced data is merged into the cache and the subscribers are notified. -/
def loadDashboardData (env : SyncEnv) (st : SyncState) :
    Except Unit (SyncState × List Delivery) :=
  if st.isConnected then
    Except.ok
      (applyDashboard st (enhanceWithAITimestamps env (restGetDashboardData env)),
        notifySubscribers env.beh st.subscribers
          (snapshotOf (applyDashboard st
            (enhanceWithAITimestamps env (restGetDashboardData env)))))
  else
    match env.mockAdapted with
    | none => Except.error ()
    | some rawData =>
      Except.ok
        (applyDashboard st (enhanceWithAITimestamps env rawData),
          notifySubscribers env.beh st.subscribers
            (snapshotOf (applyDashboard st (enhanceWithAITimestamps env rawData))))

/-- Embeds DataSyncService.loadAnalyticsData: on success the analytics
property is cached and subscribers are notified; a failed fetch is caught
and logged without rethrowing, leaving the state unchanged. -/
def loadAnalyticsData (env : SyncEnv) (st : SyncState) : SyncState × List Delivery :=
  match env.analyticsFetch with
  | some a =>
    ({ st with cachedAnalytics := some a },
      notifySubscribers env.beh st.subscribers
        (snapshotOf { st with cachedAnalytics := some a }))
  | none => (st, [])

/-- Embeds startPeriodicSync: any previous interval is cleared and a single
new one armed; the timer handle is modelled as a flag. -/
def startPeriodicSync (st : SyncState) : SyncState :=
  { st with timerOn := true }

/-- Embeds DataSyncService.initialize: record the connection decision
(useFHIR and the probe outcome), run one dashboard load (whose failure the
catch rethrows to the caller), load analytics, and arm the periodic timer
only when connected. The returned list is the concatenated invocation
log. -/
def initializeSync (env : SyncEnv) (useFHIR : Bool) (st : SyncState) :
    Except Unit (SyncState × List Delivery) :=
  match loadDashboardData env { st with isConnected := useFHIR && env.restConnected } with
  | Except.error e => Except.error e
  | Except.ok (st2, ds1) =>
    match loadAnalyticsData env st2 with
    | (st3, ds2) =>
      (if st3.isConnected then Except.ok (startPeriodicSync st3, ds1 ++ ds2)
       else Except.ok (st3, ds1 ++ ds2))

/-- The argument of subscribe: a function callback with an identity, or a
non-function value. -/
inductive SubArg where
  | fn (id : Nat)
  | notFn
deriving DecidableEq, Repr

/-- JS Set.add keyed on identity: no-op when present, append otherwise. -/
def setAdd (l : List Nat) (i : Nat) : List Nat :=
  if i ∈ l then l else l ++ [i]

/-- JS Set.delete keyed on identity. -/
def setDelete (l : List Nat) (i : Nat) : List Nat :=
  l.filter (fun j => j ≠ i)

/-- Embeds DataSyncService.subscribe: a non-function argument is rejected
with a logged error and an empty no-op unsubscribe closure; a function is
added to the subscriber set and the returned closure deletes it. -/
def subscribe (st : SyncState) (arg : SubArg) : SyncState × (SyncState → SyncState) :=
  match arg with
  | SubArg.notFn => (st, fun s => s)
  | SubArg.fn i =>
    ({ st with subscribers := setAdd st.subscribers i },
      fun s => { s with subscribers := setDelete s.subscribers i })

/-! ## Observable effect traces of refresh (DataSyncService.refresh)

For the concurrency property the relevant observable is the sequence of
I/O effects a call emits towards the data sources. refresh awaits
loadDashboardData then loadAnalyticsData unconditionally: there is no
in-flight-cycle flag anywhere in the class, so every call emits the full
cycle of fetches. Two overlapping calls on the event loop interleave their
effect lists; every interleaving is a permutation of their concatenation,
and the fetch counts are permutation-invariant.
-/

/-- One observable effect of a load cycle. -/
inductive Eff where
  | fetchSummary
  | searchRemote (resourceType : String)
  | fetchAnalytics
  | notifyEff
deriving DecidableEq, Repr

/-- The effects loadDashboardData emits: the three resource searches of
getDashboardData when connected, or the single fixture fetch when not, then
the subscriber notification. -/
def loadDashboardTrace (connected : Bool) : List Eff :=
  if connected then
    [Eff.searchRemote "Patient", Eff.searchRemote "Encounter",
      Eff.searchRemote "Observation", Eff.notifyEff]
  else [Eff.fetchSummary, Eff.notifyEff]

/-- The effects loadAnalyticsData emits. -/
def loadAnalyticsTrace : List Eff := [Eff.fetchAnalytics, Eff.notifyEff]

/-- The effects one refresh call emits: a full dashboard load followed by
an analytics load, with no guard against an in-flight cycle. -/
def refreshTrace (connected : Bool) : List Eff :=
  loadDashboardTrace connected ++ loadAnalyticsTrace

/-- The number of load rounds a trace shows to the sources: each round
opens with the fixture fetch (mock) or the Patient search (connected). -/
def fetchRounds (t : List Eff) : Nat :=
  t.count Eff.fetchSummary + t.count (Eff.searchRemote "Patient")

/-! ### Concrete load-cycle environments -/

/-- A network that is down: every fetch rejects. -/
def downHttp : Nat → String → List (String × String) → Option (HttpResp Nat) :=
  fun _ _ _ => none

/-- An adapter output on a mock fixture holding one patient. -/
def mockFixtureDash : Dashboard := ⟨[⟨1, 0, [], none⟩], 0⟩

/-- A load-cycle environment in which the connectivity probe had passed but
the network is unreachable at fetch time. -/
def envProbePassed : SyncEnv :=
  { restConnected := true
    mockAdapted := some mockFixtureDash
    http := downHttp
    adaptRestPatient := fun e => ⟨e, 0, [], none⟩
    restPayload := fun _ _ _ => 0
    analyticsFetch := none
    ai := fun _ => Except.ok []
    aiFallback := fun _ => []
    beh := fun _ _ => false }

/-- A load-cycle environment in which the connectivity probe failed. -/
def envProbeFailed : SyncEnv :=
  { restConnected := false
    mockAdapted := some mockFixtureDash
    http := downHttp
    adaptRestPatient := fun e => ⟨e, 0, [], none⟩
    restPayload := fun _ _ _ => 0
    analyticsFetch := none
    ai := fun _ => Except.ok []
    aiFallback := fun _ => []
    beh := fun _ _ => false }

/-- A service state with one subscriber and an empty cache. -/
def stOneSub : SyncState := ⟨false, [1], [], 0, none, false⟩

end Dash

/-! ## Helper lemmas -/

namespace Dash

theorem digitChar_ne_slash (m : Nat) : digitChar m ≠ '/' := by
  unfold digitChar
  split_ifs <;> decide

theorem digitChar_ne_dash (m : Nat) : digitChar m ≠ '-' := by
  unfold digitChar
  split_ifs <;> decide

theorem natToCharsGo_mem (fuel : Nat) : ∀ (n : Nat) (acc : List Char) (c : Char),
    c ∈ natToCharsGo fuel n acc → (∃ m, c = digitChar m) ∨ c ∈ acc := by
  induction fuel with
  | zero => intro n acc c h; exact Or.inr h
  | succ fuel ih =>
    intro n acc c h
    simp only [natToCharsGo] at h
    by_cases hn : n < 10
    · rw [if_pos hn] at h
      rcases List.mem_cons.mp h with h1 | h1
      · exact Or.inl ⟨n, h1⟩
      · exact Or.inr h1
    · rw [if_neg hn] at h
      rcases ih _ _ _ h with h1 | h1
      · exact Or.inl h1
      · rcases List.mem_cons.mp h1 with h2 | h2
        · exact Or.inl ⟨n % 10, h2⟩
        · exact Or.inr h2

theorem natToChars_mem {n : Nat} {c : Char} (h : c ∈ natToChars n) : ∃ m, c = digitChar m := by
  rcases natToCharsGo_mem _ _ _ _ h with h1 | h1
  · exact h1
  · exact absurd h1 (List.not_mem_nil c)

theorem slash_not_mem_natToChars (n : Nat) : '/' ∉ natToChars n := by
  intro h
  rcases natToChars_mem h with ⟨m, hm⟩
  exact digitChar_ne_slash m hm.symm

theorem dash_not_mem_natToChars (n : Nat) : '-' ∉ natToChars n := by
  intro h
  rcases natToChars_mem h with ⟨m, hm⟩
  exact digitChar_ne_dash m hm.symm

theorem natToCharsGo_ne_nil (fuel : Nat) : ∀ (n : Nat) (acc : List Char), acc ≠ [] →
    natToCharsGo fuel n acc ≠ [] := by
  induction fuel with
  | zero => intro n acc h; simpa [natToCharsGo] using h
  | succ fuel ih =>
    intro n acc h
    simp only [natToCharsGo]
    by_cases hn : n < 10
    · rw [if_pos hn]; exact List.cons_ne_nil _ _
    · rw [if_neg hn]; exact ih _ _ (List.cons_ne_nil _ _)

theorem natToChars_ne_nil (n : Nat) : natToChars n ≠ [] := by
  unfold natToChars
  simp only [natToCharsGo]
  by_cases hn : n < 10
  · rw [if_pos hn]; exact List.cons_ne_nil _ _
  · rw [if_neg hn]; exact natToCharsGo_ne_nil _ _ _ (List.cons_ne_nil _ _)

theorem slash_not_mem_intToChars (i : Int) : '/' ∉ intToChars i := by
  unfold intToChars
  by_cases h : i < 0
  · rw [if_pos h]
    intro hm
    rcases List.mem_cons.mp hm with h1 | h1
    · exact absurd h1 (by decide)
    · exact slash_not_mem_natToChars _ h1
  · rw [if_neg h]
    exact slash_not_mem_natToChars _

theorem intToChars_ne_nil (i : Int) : intToChars i ≠ [] := by
  unfold intToChars
  by_cases h : i < 0
  · rw [if_pos h]; exact List.cons_ne_nil _ _
  · rw [if_neg h]; exact natToChars_ne_nil _

theorem intToChars_ne_dashdash (i : Int) : intToChars i ≠ ['-', '-'] := by
  unfold intToChars
  by_cases h : i < 0
  · rw [if_pos h]
    intro he
    have h2 : natToChars i.natAbs = ['-'] := by
      injection he
    have : '-' ∈ natToChars i.natAbs := by rw [h2]; exact List.mem_cons_self _ _
    exact dash_not_mem_natToChars _ this
  · rw [if_neg h]
    intro he
    have : '-' ∈ natToChars i.toNat := by rw [he]; exact List.mem_cons_self _ _
    exact dash_not_mem_natToChars _ this

theorem splitOnChar_of_not_mem (sep : Char) : ∀ l : List Char, sep ∉ l →
    splitOnChar sep l = [l] := by
  intro l
  induction l with
  | nil => intro; rfl
  | cons c cs ih =>
    intro h
    have hc : ¬(c = sep) := fun he => h (he ▸ List.mem_cons_self c cs)
    have hcs : sep ∉ cs := fun hm => h (List.mem_cons_of_mem _ hm)
    simp only [splitOnChar]
    rw [if_neg hc, ih hcs]

theorem splitOnChar_append (sep : Char) : ∀ (a b : List Char), sep ∉ a →
    splitOnChar sep (a ++ sep :: b) = a :: splitOnChar sep b := by
  intro a
  induction a with
  | nil =>
    intro b _
    simp [splitOnChar]
  | cons c cs ih =>
    intro b h
    have hc : ¬(c = sep) := fun he => h (he ▸ List.mem_cons_self c cs)
    have hcs : sep ∉ cs := fun hm => h (List.mem_cons_of_mem _ hm)
    simp only [List.cons_append, splitOnChar, List.append_eq]
    rw [if_neg hc, ih b hcs]

theorem append_sep_inj (sep : Char) : ∀ (a a2 b b2 : List Char), sep ∉ a → sep ∉ a2 →
    a ++ sep :: b = a2 ++ sep :: b2 → a = a2 ∧ b = b2 := by
  intro a
  induction a with
  | nil =>
    intro a2 b b2 _ ha2 he
    cases a2 with
    | nil =>
      simp only [List.nil_append, List.cons.injEq] at he
      exact ⟨rfl, he.2⟩
    | cons c cs =>
      simp only [List.nil_append, List.cons_append, List.cons.injEq] at he
      exact absurd (he.1 ▸ List.mem_cons_self c cs) ha2
  | cons c cs ih =>
    intro a2 b b2 ha ha2 he
    cases a2 with
    | nil =>
      simp only [List.cons_append, List.nil_append, List.cons.injEq] at he
      exact absurd (he.1 ▸ List.mem_cons_self c cs) ha
    | cons d ds =>
      simp only [List.cons_append, List.cons.injEq] at he
      have hcs : sep ∉ cs := fun hm => ha (List.mem_cons_of_mem _ hm)
      have hds : sep ∉ ds := fun hm => ha2 (List.mem_cons_of_mem _ hm)
      rcases ih ds b b2 hcs hds he.2 with ⟨h1, h2⟩
      exact ⟨by rw [he.1, h1], h2⟩

theorem splitOnChar_bpFull (a b : Int) :
    splitOnChar '/' (bpFull a b) = [intToChars a, intToChars b] := by
  unfold bpFull
  rw [splitOnChar_append '/' _ _ (slash_not_mem_intToChars a),
    splitOnChar_of_not_mem '/' _ (slash_not_mem_intToChars b)]

theorem splitOnChar_bpSysOnly (a : Int) :
    splitOnChar '/' (bpSysOnly a) = [intToChars a, ['-', '-']] := by
  unfold bpSysOnly
  rw [splitOnChar_append '/' _ _ (slash_not_mem_intToChars a),
    splitOnChar_of_not_mem '/' _ (by decide)]

theorem splitOnChar_bpDiaOnly (b : Int) :
    splitOnChar '/' (bpDiaOnly b) = [['-', '-'], intToChars b] := by
  have h : bpDiaOnly b = ['-', '-'] ++ '/' :: intToChars b := rfl
  rw [h, splitOnChar_append '/' _ _ (by decide),
    splitOnChar_of_not_mem '/' _ (slash_not_mem_intToChars b)]

theorem extractVitalsStep_inv (acc : VitalsAcc) (o : Obs) (h : accInv acc) :
    accInv (extractVitalsStep acc o) := by
  rcases o with ⟨sr, oc, ov⟩
  cases oc with
  | none => exact h
  | some c =>
    cases ov with
    | none => exact h
    | some v =>
      show accInv (if c ≠ [] ∧ v ≠ 0 then _ else _)
      split_ifs with hg h1 h2 h3 h4 h5
      · exact ⟨h.1, h.2⟩
      · refine ⟨?_, h.2⟩
        rcases h.1 with h0 | ⟨a, b, hb⟩ | ⟨a, hb⟩ | ⟨b, hb⟩
        · rw [h0]
          exact Or.inr (Or.inr (Or.inl ⟨jsRound v, rfl⟩))
        · rw [hb]
          show accBpShape (some (intToChars (jsRound v) ++ '/' ::
            jsIndex (splitOnChar '/' (bpFull a b)) 1))
          rw [splitOnChar_bpFull]
          exact Or.inr (Or.inl ⟨jsRound v, b, rfl⟩)
        · rw [hb]
          show accBpShape (some (intToChars (jsRound v) ++ '/' ::
            jsIndex (splitOnChar '/' (bpSysOnly a)) 1))
          rw [splitOnChar_bpSysOnly]
          exact Or.inr (Or.inr (Or.inl ⟨jsRound v, rfl⟩))
        · rw [hb]
          show accBpShape (some (intToChars (jsRound v) ++ '/' ::
            jsIndex (splitOnChar '/' (bpDiaOnly b)) 1))
          rw [splitOnChar_bpDiaOnly]
          exact Or.inr (Or.inl ⟨jsRound v, b, rfl⟩)
      · refine ⟨?_, h.2⟩
        rcases h.1 with h0 | ⟨a, b, hb⟩ | ⟨a, hb⟩ | ⟨b, hb⟩
        · rw [h0]
          exact Or.inr (Or.inr (Or.inr ⟨jsRound v, rfl⟩))
        · rw [hb]
          show accBpShape (some (jsIndex (splitOnChar '/' (bpFull a b)) 0 ++ '/' ::
            intToChars (jsRound v)))
          rw [splitOnChar_bpFull]
          exact Or.inr (Or.inl ⟨a, jsRound v, rfl⟩)
        · rw [hb]
          show accBpShape (some (jsIndex (splitOnChar '/' (bpSysOnly a)) 0 ++ '/' ::
            intToChars (jsRound v)))
          rw [splitOnChar_bpSysOnly]
          exact Or.inr (Or.inl ⟨a, jsRound v, rfl⟩)
        · rw [hb]
          show accBpShape (some (jsIndex (splitOnChar '/' (bpDiaOnly b)) 0 ++ '/' ::
            intToChars (jsRound v)))
          rw [splitOnChar_bpDiaOnly]
          exact Or.inr (Or.inr (Or.inr ⟨jsRound v, rfl⟩))
      · exact ⟨h.1, Or.inr ⟨v, rfl⟩⟩
      · exact ⟨h.1, h.2⟩
      · exact h
      · exact h

theorem foldl_extractVitalsStep_inv (l : List Obs) : ∀ acc, accInv acc →
    accInv (l.foldl extractVitalsStep acc) := by
  induction l with
  | nil => intro acc h; exact h
  | cons o l ih => intro acc h; exact ih _ (extractVitalsStep_inv _ _ h)

theorem jsOrNAnum_shape (x : Option Int) :
    jsOrNAnum x = JVal.str nA ∨ ∃ n, jsOrNAnum x = JVal.num n := by
  cases x with
  | none => exact Or.inl rfl
  | some n =>
    by_cases h : n = 0
    · exact Or.inl (by simp [jsOrNAnum, h])
    · exact Or.inr ⟨n, by simp [jsOrNAnum, h]⟩

theorem extractVitalsStep_outside (acc : VitalsAcc) (o : Obs)
    (h : ∀ c, o.code = some c → c ∉ loincCodes) : extractVitalsStep acc o = acc := by
  rcases o with ⟨sr, oc, ov⟩
  cases oc with
  | none => rfl
  | some c =>
    cases ov with
    | none => rfl
    | some v =>
      have hc := h c rfl
      simp only [loincCodes, List.mem_cons, List.not_mem_nil, or_false, not_or] at hc
      obtain ⟨h1, h2, h3, h4, h5⟩ := hc
      show (if c ≠ [] ∧ v ≠ 0 then _ else _) = acc
      by_cases hg : c ≠ [] ∧ v ≠ 0
      · rw [if_pos hg, if_neg h1, if_neg h2, if_neg h3, if_neg h4, if_neg h5]
      · rw [if_neg hg]

theorem extractVitalsStep_hr_eq (acc : VitalsAcc) (o : Obs)
    (h : ¬ o.code = some "8867-4".data) : (extractVitalsStep acc o).hr = acc.hr := by
  rcases o with ⟨sr, oc, ov⟩
  cases oc with
  | none => rfl
  | some c =>
    cases ov with
    | none => rfl
    | some v =>
      show VitalsAcc.hr (if c ≠ [] ∧ v ≠ 0 then _ else _) = acc.hr
      split_ifs with hg h1 h2 h3 h4 h5
      · exact absurd (congrArg some h1) h
      · rfl
      · rfl
      · rfl
      · rfl
      · rfl
      · rfl

theorem extractVitalsStep_bp_eq (acc : VitalsAcc) (o : Obs)
    (hs : ¬ o.code = some "8480-6".data) (hd : ¬ o.code = some "8462-4".data) :
    (extractVitalsStep acc o).bp = acc.bp := by
  rcases o with ⟨sr, oc, ov⟩
  cases oc with
  | none => rfl
  | some c =>
    cases ov with
    | none => rfl
    | some v =>
      show VitalsAcc.bp (if c ≠ [] ∧ v ≠ 0 then _ else _) = acc.bp
      split_ifs with hg h1 h2 h3 h4 h5
      · rfl
      · exact absurd (congrArg some h2) hs
      · exact absurd (congrArg some h3) hd
      · rfl
      · rfl
      · rfl
      · rfl

theorem extractVitalsStep_temp_eq (acc : VitalsAcc) (o : Obs)
    (h : ¬ o.code = some "8310-5".data) : (extractVitalsStep acc o).temp = acc.temp := by
  rcases o with ⟨sr, oc, ov⟩
  cases oc with
  | none => rfl
  | some c =>
    cases ov with
    | none => rfl
    | some v =>
      show VitalsAcc.temp (if c ≠ [] ∧ v ≠ 0 then _ else _) = acc.temp
      split_ifs with hg h1 h2 h3 h4 h5
      · rfl
      · rfl
      · rfl
      · exact absurd (congrArg some h4) h
      · rfl
      · rfl
      · rfl

theorem extractVitalsStep_spo2_eq (acc : VitalsAcc) (o : Obs)
    (h : ¬ o.code = some "2708-6".data) : (extractVitalsStep acc o).spo2 = acc.spo2 := by
  rcases o with ⟨sr, oc, ov⟩
  cases oc with
  | none => rfl
  | some c =>
    cases ov with
    | none => rfl
    | some v =>
      show VitalsAcc.spo2 (if c ≠ [] ∧ v ≠ 0 then _ else _) = acc.spo2
      split_ifs with hg h1 h2 h3 h4 h5
      · rfl
      · rfl
      · rfl
      · rfl
      · exact absurd (congrArg some h5) h
      · rfl
      · rfl

theorem foldl_hr_eq (l : List Obs) : ∀ acc, (∀ o ∈ l, ¬ o.code = some "8867-4".data) →
    (l.foldl extractVitalsStep acc).hr = acc.hr := by
  induction l with
  | nil => intro acc _; rfl
  | cons o l ih =>
    intro acc h
    rw [List.foldl_cons, ih _ (fun x hx => h x (List.mem_cons_of_mem _ hx)),
      extractVitalsStep_hr_eq _ _ (h o (List.mem_cons_self _ _))]

theorem foldl_bp_eq (l : List Obs) : ∀ acc,
    (∀ o ∈ l, ¬ o.code = some "8480-6".data ∧ ¬ o.code = some "8462-4".data) →
    (l.foldl extractVitalsStep acc).bp = acc.bp := by
  induction l with
  | nil => intro acc _; rfl
  | cons o l ih =>
    intro acc h
    rw [List.foldl_cons, ih _ (fun x hx => h x (List.mem_cons_of_mem _ hx)),
      extractVitalsStep_bp_eq _ _ (h o (List.mem_cons_self _ _)).1
        (h o (List.mem_cons_self _ _)).2]

theorem foldl_temp_eq (l : List Obs) : ∀ acc, (∀ o ∈ l, ¬ o.code = some "8310-5".data) →
    (l.foldl extractVitalsStep acc).temp = acc.temp := by
  induction l with
  | nil => intro acc _; rfl
  | cons o l ih =>
    intro acc h
    rw [List.foldl_cons, ih _ (fun x hx => h x (List.mem_cons_of_mem _ hx)),
      extractVitalsStep_temp_eq _ _ (h o (List.mem_cons_self _ _))]

theorem foldl_spo2_eq (l : List Obs) : ∀ acc, (∀ o ∈ l, ¬ o.code = some "2708-6".data) →
    (l.foldl extractVitalsStep acc).spo2 = acc.spo2 := by
  induction l with
  | nil => intro acc _; rfl
  | cons o l ih =>
    intro acc h
    rw [List.foldl_cons, ih _ (fun x hx => h x (List.mem_cons_of_mem _ hx)),
      extractVitalsStep_spo2_eq _ _ (h o (List.mem_cons_self _ _))]

theorem assocGet_assocSet_self : ∀ (m : List (List Char × List Char)) (k v : List Char),
    assocGet (assocSet m k v) k = some v := by
  intro m
  induction m with
  | nil => intro k v; simp [assocSet, assocGet]
  | cons p ps ih =>
    intro k v
    by_cases hp : p.1 = k
    · simp [assocSet, assocGet, hp]
    · simp only [assocSet, if_neg hp, assocGet]
      exact ih k v

theorem assocGet_assocSet_ne : ∀ (m : List (List Char × List Char)) (k v k2 : List Char),
    ¬ k = k2 → assocGet (assocSet m k v) k2 = assocGet m k2 := by
  intro m
  induction m with
  | nil =>
    intro k v k2 h
    simp [assocSet, assocGet, h]
  | cons p ps ih =>
    intro k v k2 h
    by_cases hp : p.1 = k
    · simp only [assocSet, if_pos hp, assocGet]
      rw [if_neg h, if_neg (hp ▸ h)]
    · simp only [assocSet, if_neg hp, assocGet]
      by_cases hq : p.1 = k2
      · rw [if_pos hq, if_pos hq]
      · rw [if_neg hq, if_neg hq]
        exact ih k v k2 h

theorem mockVitalsStep_get (m m2 : List (List Char × List Char)) (o : MObs) (c : List Char)
    (h : ∀ κ, ¬ κ = c → assocGet m κ = assocGet m2 κ) :
    ∀ κ, ¬ κ = c → assocGet (mockVitalsStep m o) κ = assocGet (mockVitalsStep m2 o) κ := by
  intro κ hκ
  rcases o with ⟨sr, oc, ov⟩
  cases ov with
  | none => exact h κ hκ
  | some v =>
    dsimp only [mockVitalsStep]
    by_cases hv : v ≠ 0
    · rw [if_pos hv, if_pos hv]
      by_cases ho : oc = κ
      · rw [ho, assocGet_assocSet_self, assocGet_assocSet_self]
      · rw [assocGet_assocSet_ne _ _ _ _ ho, assocGet_assocSet_ne _ _ _ _ ho]
        exact h κ hκ
    · rw [if_neg hv, if_neg hv]
      exact h κ hκ

theorem foldl_mockVitalsStep_get (l : List MObs) :
    ∀ (m m2 : List (List Char × List Char)) (c : List Char),
    (∀ κ, ¬ κ = c → assocGet m κ = assocGet m2 κ) →
    ∀ κ, ¬ κ = c →
    assocGet (l.foldl mockVitalsStep m) κ = assocGet (l.foldl mockVitalsStep m2) κ := by
  induction l with
  | nil => intro m m2 c h κ hκ; exact h κ hκ
  | cons o l ih =>
    intro m m2 c h κ hκ
    rw [List.foldl_cons, List.foldl_cons]
    exact ih _ _ c (mockVitalsStep_get m m2 o c h) κ hκ

theorem mockVitalsStep_get_missing (m : List (List Char × List Char)) (o : MObs)
    (κ : List Char) (h : ¬ o.code = κ) : assocGet (mockVitalsStep m o) κ = assocGet m κ := by
  rcases o with ⟨sr, oc, ov⟩
  cases ov with
  | none => rfl
  | some v =>
    dsimp only [mockVitalsStep]
    replace h : ¬ oc = κ := h
    by_cases hv : v ≠ 0
    · rw [if_pos hv, assocGet_assocSet_ne _ _ _ _ h]
    · rw [if_neg hv]

theorem foldl_mock_get_missing (l : List MObs) : ∀ (m : List (List Char × List Char))
    (κ : List Char), (∀ o ∈ l, ¬ o.code = κ) →
    assocGet (l.foldl mockVitalsStep m) κ = assocGet m κ := by
  induction l with
  | nil => intro m κ _; rfl
  | cons o l ih =>
    intro m κ h
    rw [List.foldl_cons, ih _ _ (fun x hx => h x (List.mem_cons_of_mem _ hx)),
      mockVitalsStep_get_missing _ _ _ (h o (List.mem_cons_self _ _))]

theorem respOk_of_400or422 {α : Type} (r : HttpResp α)
    (h : r.status = 400 ∨ r.status = 422) : respOk r = false := by
  rcases h with h | h <;> simp [respOk, h]

theorem hasKey_buildQuery_default (params : List (String × String)) :
    hasKey (buildQuery params false) "_sort" = true := by
  simp only [buildQuery, hasKey, List.any_append, Bool.or_eq_true]
  by_cases hs : params.any (fun p => p.1 = "_sort") = true
  · exact Or.inl (Or.inl hs)
  · right
    simp [hasKey, hs]

theorem hasKey_buildQuery_omit (params : List (String × String)) :
    hasKey (buildQuery params true) "_sort" = hasKey params "_sort" := by
  simp only [buildQuery, hasKey, List.any_append]
  by_cases hc : params.any (fun p => p.1 = "_count") = true <;>
    simp [hasKey, hc]

theorem filter_orderedInsert_ts (a : TEvent) (t : Int) : ∀ s : List TEvent,
    (List.orderedInsert tsDesc a s).filter (fun e => e.timestamp = t) =
      ((a :: s).filter (fun e => e.timestamp = t)) := by
  intro s
  induction s with
  | nil => rfl
  | cons b s ih =>
    simp only [List.orderedInsert]
    split_ifs with hab
    · rfl
    · have hlt : a.timestamp < b.timestamp := not_le.mp hab
      by_cases hb : b.timestamp = t
      · have ha : ¬ a.timestamp = t := by omega
        simp [List.filter_cons, ih, hb, ha]
      · simp [List.filter_cons, ih, hb]

theorem filter_insertionSort_ts (t : Int) : ∀ l : List TEvent,
    (List.insertionSort tsDesc l).filter (fun e => e.timestamp = t) =
      l.filter (fun e => e.timestamp = t) := by
  intro l
  induction l with
  | nil => rfl
  | cons b l ih =>
    simp only [List.insertionSort]
    rw [filter_orderedInsert_ts, List.filter_cons, List.filter_cons, ih]

theorem searchResources_netdown {α : Type}
    (http : Nat → String → List (String × String) → Option (HttpResp α))
    (h : ∀ n rt q, http n rt q = none) (rt : String) (params : List (String × String)) :
    searchResources http rt params = ([buildQuery params false], []) := by
  unfold searchResources
  rw [h]
  rfl

theorem restGetDashboardData_netdown (env : SyncEnv)
    (h : ∀ n rt q, env.http n rt q = none) :
    (enhanceWithAITimestamps env (restGetDashboardData env)).patients = [] := by
  unfold enhanceWithAITimestamps restGetDashboardData
  rw [searchResources_netdown env.http h]
  rfl

end Dash

/-! ## Theorems -/

namespace Dash

/-- C2: the journey-time classification is a pure function of the summed
per-step turnaround values: for every turnaround mapping, the status is
ON TARGET exactly when the sum over keySteps is at most 240, AT RISK exactly
when it is over 240 and at most 300, and OFF TARGET exactly when it is over
300, boundary-exact at 240 and 300. -/
theorem C2_journey_classification (turnaround : List (String × Int)) :
    (fourHourStatus (estimatedJourney turnaround) = "ON TARGET" ↔
      estimatedJourney turnaround ≤ 240) ∧
    (fourHourStatus (estimatedJourney turnaround) = "AT RISK" ↔
      (240 < estimatedJourney turnaround ∧ estimatedJourney turnaround ≤ 300)) ∧
    (fourHourStatus (estimatedJourney turnaround) = "OFF TARGET" ↔
      300 < estimatedJourney turnaround) := by
  unfold fourHourStatus
  split
  · refine ⟨⟨fun _ => by omega, fun _ => rfl⟩, ⟨fun h => by simp at h, fun h => by omega⟩,
      ⟨fun h => by simp at h, fun h => by omega⟩⟩
  · split
    · refine ⟨⟨fun h => by simp at h, fun h => by omega⟩, ⟨fun _ => by omega, fun _ => rfl⟩,
        ⟨fun h => by simp at h, fun h => by omega⟩⟩
    · refine ⟨⟨fun h => by simp at h, fun h => by omega⟩, ⟨fun h => by simp at h, fun h => by omega⟩,
        ⟨fun _ => by omega, fun _ => rfl⟩⟩

/-- C2 boundary witness: concrete mappings summing to 240, 300 and 301
classify as ON TARGET, AT RISK and OFF TARGET respectively. -/
theorem C2_journey_classification_witness :
    fourHourStatus (estimatedJourney [("Triage to Nurse", 240)]) = "ON TARGET" ∧
    fourHourStatus (estimatedJourney [("Triage to Nurse", 300)]) = "AT RISK" ∧
    fourHourStatus (estimatedJourney [("Triage to Nurse", 301)]) = "OFF TARGET" :=
  ⟨((C2_journey_classification [("Triage to Nurse", 240)]).1).2 (by decide),
   ((C2_journey_classification [("Triage to Nurse", 300)]).2.1).2 (by decide),
   ((C2_journey_classification [("Triage to Nurse", 301)]).2.2).2 (by decide)⟩

/-- C4 counterexample: the claim asserts exact calendar-age semantics on
every code path that derives an age from a birth date, including dashboard
assembly. On 2026-10-12 (month value 9 is October under zero-based months) a
patient born 2000-12-25 (month value 11) has exact calendar age 25, and
RestApiService.calculateAge returns 25, but the dashboard-assembly path in
FHIRClient.buildDashboardData returns the plain year difference 26. -/
theorem C4_age_counterexample :
    calculateAge ⟨2026, 9, 12⟩ (some ⟨2000, 11, 25⟩) = 25 ∧
    specCalendarAge ⟨2026, 9, 12⟩ ⟨2000, 11, 25⟩ = 25 ∧
    fhirBuildAge ⟨2026, 9, 12⟩ ⟨2000, 11, 25⟩ = 26 ∧
    fhirBuildAge ⟨2026, 9, 12⟩ ⟨2000, 11, 25⟩ ≠
      specCalendarAge ⟨2026, 9, 12⟩ ⟨2000, 11, 25⟩ := by
  refine ⟨by decide, by decide, by decide, by decide⟩

/-- C4 as amended: RestApiService.calculateAge implements exact calendar-age
semantics for every pair of dates (year difference, decremented by one
exactly when the current month/day lexicographically precedes the birth
month/day), while the age derived during FHIRClient dashboard assembly is the
plain year difference, which exceeds the exact calendar age by one whenever
the birthday has not yet occurred in the current year. -/
theorem C4_age_amended (today birth : SimpleDate) :
    calculateAge today (some birth) = specCalendarAge today birth ∧
    fhirBuildAge today birth = today.year - birth.year ∧
    (today.month < birth.month ∨ (today.month = birth.month ∧ today.day < birth.day) →
      fhirBuildAge today birth = specCalendarAge today birth + 1) := by
  constructor
  · simp only [calculateAge, specCalendarAge]
    split <;> split <;> omega
  · constructor
    · rfl
    · intro h
      unfold fhirBuildAge specCalendarAge
      rw [if_pos h]
      omega

/-- C5 counterexample: the claim asserts bloodPressure is either a complete
systolic/diastolic pair or the sentinel N/A, never a half-filled pair. An
observation list holding one systolic observation (code 8480-6, value 120)
for the patient yields the half-filled pair text 120 slash dash dash, which
is neither the sentinel nor a complete pair of parsed numbers. -/
theorem C5_bp_counterexample :
    (extractVitals [⟨some (patientRefChars ['1']), some "8480-6".data, some 120⟩] ['1']).bp =
      JVal.str ['1', '2', '0', '/', '-', '-'] ∧
    ['1', '2', '0', '/', '-', '-'] ≠ nA ∧
    ¬ isCompleteBp ['1', '2', '0', '/', '-', '-'] := by
  refine ⟨by decide, by decide, ?_⟩
  rintro ⟨a, b, hab⟩
  unfold bpFull at hab
  have h120 : ('1' :: '2' :: '0' :: '/' :: '-' :: '-' :: ([] : List Char)) =
      ['1', '2', '0'] ++ '/' :: ['-', '-'] := rfl
  rw [h120] at hab
  have hinj := append_sep_inj '/' ['1', '2', '0'] (intToChars a) ['-', '-'] (intToChars b)
    (by decide) (slash_not_mem_intToChars a) hab
  exact intToChars_ne_dashdash b hinj.2.symm

/-- C5 as amended: for every observation list and patient id, each of the
heartRate, temperature, spo2 and respiratoryRate fields is either a parsed
value or the sentinel N/A, and the bloodPressure field is either the
sentinel, a complete systolic/diastolic pair, or a half-filled pair carrying
the placeholder marks on the side whose observation was not parsed. -/
theorem C5_vitals_amended (observations : List Obs) (patientId : List Char) :
    ((extractVitals observations patientId).hr = JVal.str nA ∨
      ∃ n, (extractVitals observations patientId).hr = JVal.num n) ∧
    ((extractVitals observations patientId).bp = JVal.str nA ∨
      (∃ a b, (extractVitals observations patientId).bp = JVal.str (bpFull a b)) ∨
      (∃ a, (extractVitals observations patientId).bp = JVal.str (bpSysOnly a)) ∨
      (∃ b, (extractVitals observations patientId).bp = JVal.str (bpDiaOnly b))) ∧
    ((extractVitals observations patientId).temp = JVal.str nA ∨
      ∃ n, (extractVitals observations patientId).temp = JVal.str (jsToFixed1 n)) ∧
    (extractVitals observations patientId).rr = JVal.str nA ∧
    ((extractVitals observations patientId).spo2 = JVal.str nA ∨
      ∃ n, (extractVitals observations patientId).spo2 = JVal.num n) := by
  have hinv := foldl_extractVitalsStep_inv
    (observations.filter (fun o => o.subjectRef = some (patientRefChars patientId)))
    ⟨none, none, none, none⟩ ⟨Or.inl rfl, Or.inl rfl⟩
  simp only [extractVitals, mkVitalsOut]
  refine ⟨jsOrNAnum_shape _, ?_, ?_, trivial, jsOrNAnum_shape _⟩
  · rcases hinv.1 with h0 | ⟨a, b, hb⟩ | ⟨a, hb⟩ | ⟨b, hb⟩
    · rw [h0]
      exact Or.inl rfl
    · rw [hb]
      simp only [jsOrNAstr]
      split_ifs with he
      · exact Or.inl rfl
      · exact Or.inr (Or.inl ⟨a, b, rfl⟩)
    · rw [hb]
      simp only [jsOrNAstr]
      split_ifs with he
      · exact Or.inl rfl
      · exact Or.inr (Or.inr (Or.inl ⟨a, rfl⟩))
    · rw [hb]
      simp only [jsOrNAstr]
      split_ifs with he
      · exact Or.inl rfl
      · exact Or.inr (Or.inr (Or.inr ⟨b, rfl⟩))
  · rcases hinv.2 with h0 | ⟨n, hb⟩
    · rw [h0]
      exact Or.inl rfl
    · rw [hb]
      simp only [jsOrNAstr]
      split_ifs with he
      · exact Or.inl rfl
      · exact Or.inr ⟨n, rfl⟩

/-- C6 counterexample: the claim asserts that vitals extraction maps only
the standardized code table (8867-4, 8480-6, 8462-4, 8310-5, 2708-6) and
that an observation whose code is outside that table contributes nothing.
FHIRClient.extractVitalsFromObservations instead keys on the short mock
codes: an observation with code hr (not in the claimed table) and value 120
changes the result, populating the heart-rate field. -/
theorem C6_code_table_counterexample :
    ['h', 'r'] ∉ loincCodes ∧
    (extractVitalsFromObservations [⟨patientRefChars ['1'], ['h', 'r'], some 120⟩]
      ['1']).hr = JVal.str ['1', '2', '0'] ∧
    extractVitalsFromObservations [⟨patientRefChars ['1'], ['h', 'r'], some 120⟩] ['1'] ≠
      extractVitalsFromObservations [] ['1'] :=
  ⟨by decide, by decide, by decide⟩

/-- C6 as amended: RestApiService.extractVitals keys on the standardized
table (8867-4, 8480-6, 8462-4, 8310-5, 2708-6): an observation whose code
is outside that table contributes nothing, and a table code with no matching
observation yields N/A for its field, the key being present in the returned
record by construction. FHIRClient.extractVitalsFromObservations instead
keys on the mock codes hr, bp, temp, spo2 with the same two properties
relative to its own table. -/
theorem C6_code_table_amended :
    (∀ (l1 l2 : List Obs) (o : Obs) (pid : List Char),
      (∀ c, o.code = some c → c ∉ loincCodes) →
      extractVitals (l1 ++ o :: l2) pid = extractVitals (l1 ++ l2) pid) ∧
    (∀ (observations : List Obs) (pid : List Char),
      ((∀ o ∈ observations, ¬ o.code = some "8867-4".data) →
        (extractVitals observations pid).hr = JVal.str nA) ∧
      ((∀ o ∈ observations,
          ¬ o.code = some "8480-6".data ∧ ¬ o.code = some "8462-4".data) →
        (extractVitals observations pid).bp = JVal.str nA) ∧
      ((∀ o ∈ observations, ¬ o.code = some "8310-5".data) →
        (extractVitals observations pid).temp = JVal.str nA) ∧
      ((∀ o ∈ observations, ¬ o.code = some "2708-6".data) →
        (extractVitals observations pid).spo2 = JVal.str nA)) ∧
    (∀ (l1 l2 : List MObs) (o : MObs) (pid : List Char), o.code ∉ mockCodes →
      extractVitalsFromObservations (l1 ++ o :: l2) pid =
        extractVitalsFromObservations (l1 ++ l2) pid) ∧
    (∀ (observations : List MObs) (pid : List Char),
      ((∀ o ∈ observations, ¬ o.code = ['h', 'r']) →
        (extractVitalsFromObservations observations pid).hr = JVal.str nA) ∧
      ((∀ o ∈ observations, ¬ o.code = ['b', 'p']) →
        (extractVitalsFromObservations observations pid).bp = JVal.str nA) ∧
      ((∀ o ∈ observations, ¬ o.code = ['t', 'e', 'm', 'p']) →
        (extractVitalsFromObservations observations pid).temp = JVal.str nA) ∧
      ((∀ o ∈ observations, ¬ o.code = ['s', 'p', 'o', '2']) →
        (extractVitalsFromObservations observations pid).spo2 = JVal.str nA)) := by
  refine ⟨?_, ?_, ?_, ?_⟩
  · intro l1 l2 o pid h
    simp only [extractVitals, List.filter_append, List.filter_cons]
    split
    · rw [List.foldl_append, List.foldl_append, List.foldl_cons,
        extractVitalsStep_outside _ _ h]
    · rfl
  · intro observations pid
    refine ⟨?_, ?_, ?_, ?_⟩
    · intro h
      simp only [extractVitals, mkVitalsOut]
      rw [foldl_hr_eq _ _ (fun x hx => h x (List.mem_filter.mp hx).1)]
      rfl
    · intro h
      simp only [extractVitals, mkVitalsOut]
      rw [foldl_bp_eq _ _ (fun x hx => h x (List.mem_filter.mp hx).1)]
      rfl
    · intro h
      simp only [extractVitals, mkVitalsOut]
      rw [foldl_temp_eq _ _ (fun x hx => h x (List.mem_filter.mp hx).1)]
      rfl
    · intro h
      simp only [extractVitals, mkVitalsOut]
      rw [foldl_spo2_eq _ _ (fun x hx => h x (List.mem_filter.mp hx).1)]
      rfl
  · intro l1 l2 o pid h
    have hcode : ∀ κ ∈ mockCodes, ¬ o.code = κ := fun κ hκ he => h (he ▸ hκ)
    simp only [extractVitalsFromObservations, List.filter_append, List.filter_cons]
    split
    · rw [List.foldl_append, List.foldl_append, List.foldl_cons]
      have hrel : ∀ κ, ¬ κ = o.code →
          assocGet ((l2.filter (fun x => x.subjectRef = patientRefChars pid)).foldl
            mockVitalsStep (mockVitalsStep ((l1.filter
              (fun x => x.subjectRef = patientRefChars pid)).foldl mockVitalsStep []) o)) κ =
          assocGet ((l2.filter (fun x => x.subjectRef = patientRefChars pid)).foldl
            mockVitalsStep ((l1.filter
              (fun x => x.subjectRef = patientRefChars pid)).foldl mockVitalsStep [])) κ := by
        intro κ hκ
        refine foldl_mockVitalsStep_get _ _ _ o.code ?_ κ hκ
        intro κ2 hκ2
        exact mockVitalsStep_get_missing _ _ _ (fun he => hκ2 he.symm)
      simp only [mkMVitalsOut]
      rw [hrel ['h', 'r'] (fun he => hcode _ (by decide) he.symm),
        hrel ['b', 'p'] (fun he => hcode _ (by decide) he.symm),
        hrel ['t', 'e', 'm', 'p'] (fun he => hcode _ (by decide) he.symm),
        hrel ['s', 'p', 'o', '2'] (fun he => hcode _ (by decide) he.symm)]
    · rfl
  · intro observations pid
    refine ⟨?_, ?_, ?_, ?_⟩ <;> intro h <;>
      simp only [extractVitalsFromObservations, mkMVitalsOut] <;>
      rw [foldl_mock_get_missing _ _ _ (fun x hx => h x (List.mem_filter.mp hx).1)] <;>
      rfl

/-- C6 amended witness: an observation with the unlisted code x contributes
nothing to extractVitals, and with no heart-rate observation at all the
heart-rate field of both extractors is N/A. -/
theorem C6_code_table_amended_witness :
    extractVitals ([] ++ ⟨some (patientRefChars ['1']), some ['x'], some 5⟩ :: []) ['1'] =
      extractVitals ([] ++ []) ['1'] ∧
    (extractVitals [] ['1']).hr = JVal.str nA ∧
    (extractVitalsFromObservations [] ['1']).hr = JVal.str nA :=
  ⟨C6_code_table_amended.1 [] [] ⟨some (patientRefChars ['1']), some ['x'], some 5⟩ ['1']
      (by intro c hc; injection hc with h2; subst h2; decide),
   ((C6_code_table_amended.2.1 [] ['1']).1 (by intro o ho; cases ho)),
   ((C6_code_table_amended.2.2.2 [] ['1']).1 (by intro o ho; cases ho))⟩

/-- C7 counterexample: the claim asserts that on a 400 response the retry is
issued with the sort parameter stripped from the query. With a
caller-supplied _sort parameter and a network answering 400 to everything,
the retry is issued but its query still contains the _sort parameter — only
the default sort is ever stripped. -/
theorem C7_sort_strip_counterexample :
    (searchResources http400 "Patient" [("_sort", "-date")]).1 =
      [[("_sort", "-date"), ("_count", "10")], [("_sort", "-date"), ("_count", "10")]] ∧
    ((searchResources http400 "Patient" [("_sort", "-date")]).1.map
      (fun q => hasKey q "_sort")) = [true, true] :=
  ⟨by decide, by decide⟩

/-- C7 as amended: the first request always carries a sort parameter (the
caller's or the default); on a 400 or 422 first response exactly one retry
is issued, whose query drops the default sort but preserves a
caller-supplied _sort unchanged; and every client-level failure — a rejected
fetch, a non-2xx response without retry, or a failed retry — yields the
empty result set instead of raising. -/
theorem C7_search_amended {α : Type}
    (http : Nat → String → List (String × String) → Option (HttpResp α))
    (resourceType : String) (params : List (String × String)) :
    hasKey (buildQuery params false) "_sort" = true ∧
    hasKey (buildQuery params true) "_sort" = hasKey params "_sort" ∧
    (http 0 resourceType (buildQuery params false) = none →
      searchResources http resourceType params = ([buildQuery params false], [])) ∧
    (∀ r1, http 0 resourceType (buildQuery params false) = some r1 →
      (r1.status = 400 ∨ r1.status = 422) →
      (searchResources http resourceType params).1 =
        [buildQuery params false, buildQuery params true] ∧
      (http 1 resourceType (buildQuery params true) = none →
        (searchResources http resourceType params).2 = []) ∧
      (∀ r2, http 1 resourceType (buildQuery params true) = some r2 →
        respOk r2 = false → (searchResources http resourceType params).2 = []) ∧
      (∀ r2, http 1 resourceType (buildQuery params true) = some r2 →
        respOk r2 = true →
        (searchResources http resourceType params).2 = r2.entry.getD [])) ∧
    (∀ r1, http 0 resourceType (buildQuery params false) = some r1 →
      respOk r1 = false → ¬(r1.status = 400 ∨ r1.status = 422) →
      searchResources http resourceType params = ([buildQuery params false], [])) ∧
    (∀ r1, http 0 resourceType (buildQuery params false) = some r1 →
      respOk r1 = true →
      searchResources http resourceType params =
        ([buildQuery params false], r1.entry.getD [])) := by
  refine ⟨hasKey_buildQuery_default params, hasKey_buildQuery_omit params, ?_, ?_, ?_, ?_⟩
  · intro h
    unfold searchResources
    rw [h]
    rfl
  · intro r1 h1 hst
    have hok := respOk_of_400or422 r1 hst
    have hcond : respOk r1 = false ∧ (r1.status = 400 ∨ r1.status = 422) := ⟨hok, hst⟩
    refine ⟨?_, ?_, ?_, ?_⟩
    · unfold searchResources
      rw [h1]
      dsimp only
      rw [if_pos hcond]
      rcases h2 : http 1 resourceType (buildQuery params true) with _ | r2
      · rfl
      · dsimp only
        split_ifs <;> rfl
    · intro h2
      unfold searchResources
      rw [h1]
      dsimp only
      rw [if_pos hcond, h2]
      rfl
    · intro r2 h2 hok2
      unfold searchResources
      rw [h1]
      dsimp only
      rw [if_pos hcond, h2]
      dsimp only
      rw [if_pos hok2]
      rfl
    · intro r2 h2 hok2
      have hne : ¬ respOk r2 = false := by
        rw [hok2]
        exact fun he => absurd he (by decide)
      unfold searchResources
      rw [h1]
      dsimp only
      rw [if_pos hcond, h2]
      dsimp only
      rw [if_neg hne]
  · intro r1 h1 hok hst
    have hnc : ¬(respOk r1 = false ∧ (r1.status = 400 ∨ r1.status = 422)) :=
      fun hc => hst hc.2
    unfold searchResources
    rw [h1]
    dsimp only
    rw [if_neg hnc, if_pos hok]
    rfl
  · intro r1 h1 hok
    have hnf : ¬ respOk r1 = false := by
      rw [hok]
      exact fun he => absurd he (by decide)
    have hnc : ¬(respOk r1 = false ∧ (r1.status = 400 ∨ r1.status = 422)) :=
      fun hc => hnf hc.1
    unfold searchResources
    rw [h1]
    dsimp only
    rw [if_neg hnc, if_neg hnf]

/-- C7 amended witness: against a network answering 400 to everything, a
search with no caller parameters issues the initial query and one retry and
returns the empty result set. -/
theorem C7_search_amended_witness :
    (searchResources http400 "Patient" []).1 = [buildQuery [] false, buildQuery [] true] ∧
    (searchResources http400 "Patient" []).2 = [] :=
  ⟨((C7_search_amended http400 "Patient" []).2.2.2.1 ⟨400, none⟩ rfl (Or.inl rfl)).1,
   ((C7_search_amended http400 "Patient" []).2.2.2.1 ⟨400, none⟩ rfl
      (Or.inl rfl)).2.2.1 ⟨400, none⟩ rfl (by decide)⟩

/-- C8 counterexample: the claim asserts that events with equal timestamps
keep clinical events before enrichment events. For an encounter whose end
time equals an enrichment event's timestamp, the stable sort keeps the
pre-sort push order — enrichment events were pushed before the encounter
end event — so the AI-generated event precedes the clinical encounter end
event in the merged sequence. -/
theorem C8_tie_counterexample :
    generateTimelineEvents tieEncounter [aiTieEvent] =
      [aiTieEvent, encounterEndEvent tieEncounter 100] ∧
    aiTieEvent.timestamp = (encounterEndEvent tieEncounter 100).timestamp ∧
    aiTieEvent.source = "ai_generated".data ∧
    (encounterEndEvent tieEncounter 100).source = "fhir".data :=
  ⟨by decide, by decide, by decide, by decide⟩

/-- C8 as amended: for every encounter and enrichment list the merged
sequence is sorted descending by timestamp and is a permutation of the
pushed events; ties keep the pre-sort push order (encounter start, then
enrichment events in order, then encounter end), witnessed by the filter at
each timestamp being preserved — so an encounter start event precedes tied
enrichment events but an encounter end event follows them. -/
theorem C8_timeline_sort_amended (encounter : Enc) (aiTimestamps : List TEvent) :
    List.Sorted tsDesc (generateTimelineEvents encounter aiTimestamps) ∧
    List.Perm (generateTimelineEvents encounter aiTimestamps)
      (preSortEvents encounter aiTimestamps) ∧
    (∀ t : Int,
      (generateTimelineEvents encounter aiTimestamps).filter (fun e => e.timestamp = t) =
        (preSortEvents encounter aiTimestamps).filter (fun e => e.timestamp = t)) :=
  ⟨List.sorted_insertionSort tsDesc _, List.perm_insertionSort tsDesc _,
   fun t => filter_insertionSort_ts t _⟩

/-- C1 counterexample: the claim asserts that whenever initialize(true)
runs while the remote source cannot be reached — the probe or the remote
fetch failing — every subscriber receives a snapshot drawn from the mock
source. In the fetch-failure mode (probe passed, network down at fetch
time) each searchResources call falls into its catch and returns
getMockResources(), the empty array, so getDashboardData resolves to
buildDashboardData over empty entry lists: initialization completes and
notifies the one subscriber, but the delivered snapshot has an empty
patients list, while the mock-source snapshot (the enhanced adapter output
on the fixture) has one patient — the delivery is not drawn from the mock
source. -/
theorem C1_initialize_counterexample :
    initializeSync envProbePassed true stOneSub =
      Except.ok (⟨true, [1], [], 0, none, true⟩,
        [⟨1, ⟨[], 0, none⟩, false⟩]) ∧
    mockFixtureDash.patients ≠ [] ∧
    ([] : List DPatient) ≠
      (enhanceWithAITimestamps envProbePassed mockFixtureDash).patients :=
  ⟨rfl, by decide, by decide⟩

/-- C1 as amended: if initialize(useRemote = true) runs while the remote
source cannot be reached, initialization completes without surfacing an
error and every subscriber receives a non-null snapshot. When the
connectivity probe failed, that snapshot is drawn from the mock source:
its patients are the enhanced adapter output on the mock fixture, and no
periodic timer is armed. When the probe had passed but the remote fetches
fail, each search falls back to getMockResources — the empty array — so
the delivered snapshot is built from empty result sets: it contains no
patients and is not drawn from the mock fixture; the timer is armed. -/
theorem C1_initialize_fallback_amended :
    (∀ (env : SyncEnv) (st : SyncState) (d : Dashboard),
      env.restConnected = false → env.mockAdapted = some d →
      ∃ stf ds, initializeSync env true st = Except.ok (stf, ds) ∧
        stf.subscribers = st.subscribers ∧
        stf.cachedPatients = (enhanceWithAITimestamps env d).patients ∧
        stf.timerOn = st.timerOn ∧
        (∀ i ∈ st.subscribers, ∃ dl ∈ ds, dl.sub = i ∧
          dl.snapshot.patients = (enhanceWithAITimestamps env d).patients)) ∧
    (∀ (env : SyncEnv) (st : SyncState),
      env.restConnected = true → (∀ n rt q, env.http n rt q = none) →
      ∃ stf ds, initializeSync env true st = Except.ok (stf, ds) ∧
        stf.subscribers = st.subscribers ∧
        stf.cachedPatients = [] ∧
        stf.timerOn = true ∧
        (∀ i ∈ st.subscribers, ∃ dl ∈ ds, dl.sub = i ∧
          dl.snapshot.patients = [])) := by
  constructor
  · intro env st d hrc hmock
    simp only [initializeSync, loadDashboardData, loadAnalyticsData, hrc, hmock,
      Bool.and_false]
    rcases hfa : env.analyticsFetch with _ | a <;> simp only [hfa]
    · refine ⟨_, _, rfl, rfl, rfl, rfl, ?_⟩
      intro i hi
      exact ⟨⟨i, _, env.beh i _⟩,
        List.mem_append_left _ (List.mem_map_of_mem _ hi), rfl, rfl⟩
    · refine ⟨_, _, rfl, rfl, rfl, rfl, ?_⟩
      intro i hi
      exact ⟨⟨i, _, env.beh i _⟩,
        List.mem_append_left _ (List.mem_map_of_mem _ hi), rfl, rfl⟩
  · intro env st hrc hhttp
    have hpat := restGetDashboardData_netdown env hhttp
    simp only [initializeSync, loadDashboardData, loadAnalyticsData, hrc,
      Bool.and_true]
    rcases hfa : env.analyticsFetch with _ | a <;> simp only [hfa]
    · refine ⟨_, _, rfl, rfl, hpat, rfl, ?_⟩
      intro i hi
      exact ⟨⟨i, _, env.beh i _⟩,
        List.mem_append_left _ (List.mem_map_of_mem _ hi), rfl, hpat⟩
    · refine ⟨_, _, rfl, rfl, hpat, rfl, ?_⟩
      intro i hi
      exact ⟨⟨i, _, env.beh i _⟩,
        List.mem_append_left _ (List.mem_map_of_mem _ hi), rfl, hpat⟩

/-- C1 amended witness: with one subscriber, a failed probe delivers the
enhanced mock-fixture snapshot; a passed probe over a down network delivers
a snapshot with no patients, arming the timer. -/
theorem C1_initialize_fallback_amended_witness :
    (∃ stf ds, initializeSync envProbeFailed true stOneSub = Except.ok (stf, ds) ∧
      stf.subscribers = stOneSub.subscribers ∧
      stf.cachedPatients =
        (enhanceWithAITimestamps envProbeFailed mockFixtureDash).patients ∧
      stf.timerOn = stOneSub.timerOn ∧
      (∀ i ∈ stOneSub.subscribers, ∃ dl ∈ ds, dl.sub = i ∧
        dl.snapshot.patients =
          (enhanceWithAITimestamps envProbeFailed mockFixtureDash).patients)) ∧
    (∃ stf ds, initializeSync envProbePassed true stOneSub = Except.ok (stf, ds) ∧
      stf.subscribers = stOneSub.subscribers ∧
      stf.cachedPatients = [] ∧
      stf.timerOn = true ∧
      (∀ i ∈ stOneSub.subscribers, ∃ dl ∈ ds, dl.sub = i ∧
        dl.snapshot.patients = [])) :=
  ⟨C1_initialize_fallback_amended.1 envProbeFailed stOneSub mockFixtureDash rfl rfl,
   C1_initialize_fallback_amended.2 envProbePassed stOneSub rfl (fun _ _ _ => rfl)⟩

/-- C3: in every notification cycle all subscribed callbacks are invoked in
order with the same snapshot; a throwing callback is caught, so the
remaining callbacks are still invoked and every non-throwing callback
receives a successful delivery; and a load cycle leaves the subscriber set
unchanged for future cycles. -/
theorem C3_subscriber_isolation (beh : Nat → Snapshot → Bool) (subs : List Nat)
    (d : Snapshot) :
    (notifySubscribers beh subs d).map Delivery.sub = subs ∧
    (∀ dl ∈ notifySubscribers beh subs d, dl.snapshot = d) ∧
    (∀ i ∈ subs, beh i d = false →
      (⟨i, d, false⟩ : Delivery) ∈ notifySubscribers beh subs d) ∧
    (∀ (env : SyncEnv) (st st2 : SyncState) (ds : List Delivery),
      loadDashboardData env st = Except.ok (st2, ds) →
      st2.subscribers = st.subscribers) := by
  refine ⟨?_, ?_, ?_, ?_⟩
  · show (List.map (fun i => (⟨i, d, beh i d⟩ : Delivery)) subs).map Delivery.sub = subs
    induction subs with
    | nil => rfl
    | cons x xs ih =>
      simp only [List.map_cons]
      rw [ih]
  · intro dl hdl
    rcases List.mem_map.mp hdl with ⟨i, _, rfl⟩
    rfl
  · intro i hi hb
    refine List.mem_map.mpr ⟨i, hi, ?_⟩
    show Delivery.mk i d (beh i d) = Delivery.mk i d false
    rw [hb]
  · intro env st st2 ds h
    unfold loadDashboardData at h
    split_ifs at h
    · simp only [Except.ok.injEq, Prod.mk.injEq] at h
      rw [← h.1]
      rfl
    · rcases hm : env.mockAdapted with _ | raw
      · rw [hm] at h
        cases h
      · rw [hm] at h
        simp only [Except.ok.injEq, Prod.mk.injEq] at h
        rw [← h.1]
        rfl

/-- C3 witness: with subscriber 1 throwing and subscriber 2 succeeding, one
notification cycle still delivers the snapshot to subscriber 2. -/
theorem C3_subscriber_isolation_witness :
    (⟨2, ⟨[], 0, none⟩, false⟩ : Delivery) ∈
      notifySubscribers (fun i _ => i == 1) [1, 2] ⟨[], 0, none⟩ :=
  (C3_subscriber_isolation (fun i _ => i == 1) [1, 2] ⟨[], 0, none⟩).2.2.1 2
    (by decide) (by decide)

/-- C9 counterexample: the claim asserts that two overlapping refresh calls
result in at most one observable round of source fetches. refresh has no
in-flight guard, so each call emits a full load cycle; the displayed trace
is a genuine interleaving (a permutation of the two concatenated cycle
traces) and shows two rounds, not at most one. -/
theorem C9_refresh_counterexample :
    List.Perm
      [Eff.fetchSummary, Eff.fetchSummary, Eff.notifyEff, Eff.notifyEff,
        Eff.fetchAnalytics, Eff.fetchAnalytics, Eff.notifyEff, Eff.notifyEff]
      (refreshTrace false ++ refreshTrace false) ∧
    fetchRounds
      [Eff.fetchSummary, Eff.fetchSummary, Eff.notifyEff, Eff.notifyEff,
        Eff.fetchAnalytics, Eff.fetchAnalytics, Eff.notifyEff, Eff.notifyEff] = 2 ∧
    ¬ fetchRounds
      [Eff.fetchSummary, Eff.fetchSummary, Eff.notifyEff, Eff.notifyEff,
        Eff.fetchAnalytics, Eff.fetchAnalytics, Eff.notifyEff, Eff.notifyEff] ≤ 1 :=
  ⟨by decide, by decide, by decide⟩

/-- C9 as amended: overlapping refresh calls are not serialized — one call
emits exactly one round of source fetches, and every interleaving of two
overlapping calls (any permutation of their concatenated traces) shows
exactly two rounds. -/
theorem C9_refresh_amended :
    (∀ c : Bool, fetchRounds (refreshTrace c) = 1) ∧
    (∀ (c : Bool) (s : List Eff), List.Perm s (refreshTrace c ++ refreshTrace c) →
      fetchRounds s = 2) := by
  constructor
  · intro c
    cases c <;> decide
  · intro c s hp
    unfold fetchRounds
    rw [hp.count_eq, hp.count_eq]
    cases c <;> decide

/-- C9 amended witness: the sequential interleaving of two mock-mode
refresh calls shows exactly two fetch rounds. -/
theorem C9_refresh_amended_witness :
    fetchRounds (refreshTrace false ++ refreshTrace false) = 2 :=
  C9_refresh_amended.2 false _ (List.Perm.refl _)

/-- C10: subscribing a non-function value leaves the subscriber set
unchanged and returns a callable no-op unsubscribe closure, so notification
cycles behave exactly as if the call had never been made; by contrast,
subscribing a fresh function callback extends the set. -/
theorem C10_subscribe_non_function (st : SyncState) (beh : Nat → Snapshot → Bool)
    (d : Snapshot) :
    (subscribe st SubArg.notFn).1 = st ∧
    (∀ s, (subscribe st SubArg.notFn).2 s = s) ∧
    notifySubscribers beh ((subscribe st SubArg.notFn).1).subscribers d =
      notifySubscribers beh st.subscribers d ∧
    (∀ i, i ∉ st.subscribers →
      ((subscribe st (SubArg.fn i)).1).subscribers = st.subscribers ++ [i]) := by
  refine ⟨rfl, fun s => rfl, rfl, ?_⟩
  intro i hi
  show setAdd st.subscribers i = st.subscribers ++ [i]
  unfold setAdd
  rw [if_neg hi]

/-- C10 witness: the non-function guard evaluated on an empty service
state, plus one real subscription extending the set. -/
theorem C10_subscribe_non_function_witness :
    (subscribe ⟨false, [], [], 0, none, false⟩ SubArg.notFn).1 =
      ⟨false, [], [], 0, none, false⟩ ∧
    ((subscribe ⟨false, [], [], 0, none, false⟩ (SubArg.fn 7)).1).subscribers =
      [] ++ [7] :=
  ⟨(C10_subscribe_non_function ⟨false, [], [], 0, none, false⟩ (fun _ _ => false)
      ⟨[], 0, none⟩).1,
   (C10_subscribe_non_function ⟨false, [], [], 0, none, false⟩ (fun _ _ => false)
      ⟨[], 0, none⟩).2.2.2 7 (by decide)⟩

/-- C4 amended witness: the amended statement evaluated at 2026-10-12 versus
birth date 2000-12-25. -/
theorem C4_age_amended_witness :
    calculateAge ⟨2026, 9, 12⟩ (some ⟨2000, 11, 25⟩) =
      specCalendarAge ⟨2026, 9, 12⟩ ⟨2000, 11, 25⟩ ∧
    fhirBuildAge ⟨2026, 9, 12⟩ ⟨2000, 11, 25⟩ =
      specCalendarAge ⟨2026, 9, 12⟩ ⟨2000, 11, 25⟩ + 1 :=
  ⟨(C4_age_amended ⟨2026, 9, 12⟩ ⟨2000, 11, 25⟩).1,
   (C4_age_amended ⟨2026, 9, 12⟩ ⟨2000, 11, 25⟩).2.2 (by decide)⟩

end Dash
